import Mathlib

/-!
Verification development for the structify library (jackc/structify):
a shallow embedding, in Lean 4, of the library's source normalizer,
type-directed assigner and field-name resolver (src/structify.go), with
theorems settling the frozen specification claims.

Modelling conventions:
* Go machine integers are modelled as unbounded `Int`/`Nat` with explicit
  range checks where the code performs them (`reflect.Value.OverflowInt`,
  `strconv.ParseInt` bit-size checks).
* Go `float64` values are modelled as exact rationals `ℚ`; only values that
  are exactly representable in IEEE float64 arise in the development, and no
  theorem depends on rounding behaviour.
* Go maps are modelled as key-unique association lists.  Go map iteration
  order is unspecified; the model iterates in list order, and every theorem
  whose truth could depend on the order carries a uniqueness hypothesis that
  makes the order irrelevant.
* A Go `panic` (a fault, as opposed to a returned `error`) is modelled as a
  distinguished `fault` outcome, never as an `err` outcome.
* `unicode.IsLetter` / `unicode.IsDigit` / `unicode.ToLower` are modelled on
  the ASCII subset (`Char.isAlpha` / `Char.isDigit` / `Char.toLower`); all
  field names and map keys in the claims are ASCII.
-/

namespace Structify

/-- The canonical value union produced by `normalizeSource`
(src/structify.go lines 156-231): string, int64, float64, bool,
`map[string]any`, `[]any`, or nil (absent). -/
inductive CValue : Type where
  | str (s : String)
  | intV (n : Int)
  | floatV (q : ℚ)
  | boolV (b : Bool)
  | mapping (entries : List (String × CValue))
  | sequence (elems : List CValue)
  | absent
deriving Repr

/-- Whether a canonical value is the canonical absence (Go `nil`). -/
def CValue.isAbsent : CValue → Bool
  | .absent => true
  | _ => false

/-- The structured content of the error values the code builds with
`fmt.Errorf`.  The purely decorative message prefixes (`structify: %v`,
`structify.Parse: %v`) add text only and are not modelled; the wrappers that
carry position information (`unable to set value for %s: %v`,
`cannot assign [%d]: %v`) are modelled structurally. -/
inductive Err : Type where
  /-- `unsupported source type: %T` from `normalizeSource`. -/
  | unsupportedSourceType (typeName : String)
  /-- `cannot assign %v to %v`: used both for unconvertible shapes and for
  string parse failures (syntax and 64-bit range failures alike). -/
  | cannotAssign
  /-- `%v is not an integer` from `setAnyInt` on a non-integral float64. -/
  | notInteger
  /-- `%v overflows %v` from the `OverflowInt` destination-width check. -/
  | overflows
  /-- `missing value for %s` from `setAnyStruct`. -/
  | missingValue (fieldName : String)
  /-- `unable to set value for %s: %v` from `setAnyStruct`. -/
  | fieldWrap (fieldName : String) (cause : Err)
  /-- `cannot assign [%d]: %v` from `setAnySlice`. -/
  | indexWrap (idx : Nat) (cause : Err)
deriving Repr, DecidableEq

/-- Outcome of one assignment call: normal return without error, normal
return with a Go `error`, or a runtime panic (fault). -/
inductive RunRes : Type where
  | ok
  | err (e : Err)
  | fault (what : String)
deriving Repr, DecidableEq

/-- Whether the outcome is a normal, error-free return. -/
def RunRes.isOk : RunRes → Bool
  | .ok => true
  | _ => false

/-- Whether the outcome is a returned overflow (`%v overflows %v`) error. -/
def RunRes.isOverflowErr : RunRes → Bool
  | .err .overflows => true
  | _ => false

/-- Whether the outcome is a fault (Go panic). -/
def RunRes.isFault : RunRes → Bool
  | .fault _ => true
  | _ => false

/-- Model of `normalizeFieldName` (src/structify.go lines 416-427): keep
letters (lower-cased) and digits, drop every other character.
`unicode.IsLetter`/`IsDigit`/`ToLower` are modelled on ASCII. -/
def normalizeFieldName (s : String) : String :=
  String.mk (s.toList.filterMap (fun c =>
    if c.isAlpha then some c.toLower
    else if c.isDigit then some c
    else none))

/-- How Go `strconv.ParseInt(s, 10, 64)` fails: bad characters, or a value
outside the signed 64-bit range. -/
inductive ParseIntError : Type where
  | malformed
  | outOfRange
deriving Repr, DecidableEq

/-- The numeric value of an ASCII decimal digit. -/
def digitValue (c : Char) : Option Nat :=
  if c.isDigit then some (c.toNat - 48) else none

/-- Accumulate base-10 digits; `none` on the first non-digit character. -/
def parseDigits : List Char → Nat → Option Nat
  | [], acc => some acc
  | c :: rest, acc =>
    match digitValue c with
    | some d => parseDigits rest (acc * 10 + d)
    | none => none

/-- Model of Go `strconv.ParseInt(s, 10, 64)`: an optional single `+`/`-`
sign followed by at least one ASCII decimal digit; a value whose magnitude
exceeds the signed 64-bit range is a range error. -/
def parseInt64 (s : String) : Except ParseIntError Int :=
  match s.toList with
  | '+' :: cs =>
    if cs.isEmpty then .error .malformed
    else
      match parseDigits cs 0 with
      | none => .error .malformed
      | some m => if m ≥ 2 ^ 63 then .error .outOfRange else .ok (m : Int)
  | '-' :: cs =>
    if cs.isEmpty then .error .malformed
    else
      match parseDigits cs 0 with
      | none => .error .malformed
      | some m => if m > 2 ^ 63 then .error .outOfRange else .ok (-(m : Int))
  | cs =>
    if cs.isEmpty then .error .malformed
    else
      match parseDigits cs 0 with
      | none => .error .malformed
      | some m => if m ≥ 2 ^ 63 then .error .outOfRange else .ok (m : Int)

/-- Lookup in a Go map modelled as a key-unique association list
(`srcMap[mapKey]`). -/
def mapLookup : List (String × CValue) → String → Option CValue
  | [], _ => none
  | (k, v) :: rest, key => if k = key then some v else mapLookup rest key

/-- Model of the `normalizedNameToMapKey` index `setAnyStruct` builds
(src/structify.go lines 346-349): for a normalized name, the original map
key whose normalization is that name.  Go map iteration order is
unspecified, so among colliding keys the winner is arbitrary; the model
lets later list entries win. -/
def indexLookup : List (String × CValue) → String → Option String
  | [], _ => none
  | (k, _) :: rest, norm =>
    match indexLookup rest norm with
    | some k2 => some k2
    | none => if normalizeFieldName k = norm then some k else none

theorem mapLookup_sizeOf {m : List (String × CValue)} {k : String} {v : CValue}
    (h : mapLookup m k = some v) : sizeOf v < sizeOf m := by
  induction m with
  | nil => simp [mapLookup] at h
  | cons hd tl ih =>
    obtain ⟨k1, v1⟩ := hd
    by_cases hk : k1 = k
    · simp [mapLookup, hk] at h
      subst h
      simp
      omega
    · simp [mapLookup, hk] at h
      have := ih h
      simp
      omega

/-- The destination shapes the assigner dispatches on (the `Kind` switch in
`parseNormalizedSource`, src/structify.go lines 102-151): signed and
unsigned integers of a given bit width, floats, strings, bools, structs
(each field carrying its declared name, its optional `structify` tag and
its own shape), slices, pointers, and `any` (empty interface).
`optionalK` is the library's generic `Optional[T]` wrapper
(lines 429-437): a plain Go struct with fields `Value T` and `Present bool`
whose pointer type implements `MissingFieldScanner`. -/
inductive DstKind : Type where
  | sInt (bits : Nat)
  | uInt (bits : Nat)
  | flt (bits : Nat)
  | strK
  | boolK
  | structK (fields : List (String × Option String × DstKind))
  | slice (elem : DstKind)
  | ptr (inner : DstKind)
  | anyK
  | optionalK (inner : DstKind)
deriving Repr

/-- The contents of a destination location.  An `Optional[T]` value is its
underlying struct value `vStruct [value, vBool present]`. -/
inductive DstValue : Type where
  | vInt (n : Int)
  | vUint (n : Nat)
  | vFloat (q : ℚ)
  | vStr (s : String)
  | vBool (b : Bool)
  | vStruct (fields : List DstValue)
  | vSlice (elems : List DstValue)
  | vPtr (inner : Option DstValue)
  | vAny (c : Option CValue)
deriving Repr

mutual

/-- The zero value of a destination shape (`reflect.Zero`). -/
def zeroValue : DstKind → DstValue
  | .sInt _ => .vInt 0
  | .uInt _ => .vUint 0
  | .flt _ => .vFloat 0
  | .strK => .vStr ""
  | .boolK => .vBool false
  | .structK fields => .vStruct (zeroValues fields)
  | .slice _ => .vSlice []
  | .ptr _ => .vPtr none
  | .anyK => .vAny none
  | .optionalK inner => .vStruct [zeroValue inner, .vBool false]
termination_by k => sizeOf k

/-- Zero values of a struct's fields. -/
def zeroValues : List (String × Option String × DstKind) → List DstValue
  | [] => []
  | (_, _, k) :: rest => zeroValue k :: zeroValues rest
termination_by fs => sizeOf fs

end

/-- Result of one assignment step: the destination's contents after the call
(Go mutates the destination in place, so an erroring or faulting call can
leave partial writes behind) together with the outcome. -/
structure AOut : Type where
  val : DstValue
  res : RunRes
deriving Repr

/-- `reflect.Value.OverflowInt` fits-in-width test for a signed destination
of the given bit width. -/
def fitsSigned (bits : Nat) (n : Int) : Bool :=
  decide (-(2 ^ (bits - 1)) ≤ n ∧ n < 2 ^ (bits - 1))

def int64Min : Int := -(2 ^ 63)

def int64Max : Int := 2 ^ 63 - 1

/-- Whether the float64 `q` passes `setAnyInt`'s integrality test
`n := int64(src); src != float64(n)`: exactly the exact-integer values in
the signed 64-bit range pass (for an out-of-range integer value the Go
conversion is implementation-dependent; on amd64 it saturates, the
round-trip comparison fails, and the value is reported not-an-integer; the
model follows that behaviour, which no theorem depends on). -/
def isExactInt64 (q : ℚ) : Bool :=
  decide (q.den = 1 ∧ int64Min ≤ q.num ∧ q.num ≤ int64Max)

/-- Model of `Parser.setAnyInt` (src/structify.go lines 261-286).  The
destination may be any integer kind the dispatcher routes here, signed or
unsigned (lines 102-107 route `reflect.Uint*` kinds to this function too).
After extracting an `int64` from the source the code calls
`dstVal.OverflowInt(n)`, which panics on an unsigned `reflect.Value`, so an
unsigned destination faults instead of reaching `SetInt`. -/
def setAnyInt (src : CValue) (signed : Bool) (bits : Nat) (v : DstValue) : AOut :=
  let extracted : Except Err Int :=
    match src with
    | .intV n => .ok n
    | .floatV q => if isExactInt64 q then .ok q.num else .error .notInteger
    | .str s =>
      match parseInt64 s with
      | .ok n => .ok n
      | .error _ => .error .cannotAssign
    | _ => .error .cannotAssign
  match extracted with
  | .error e => ⟨v, .err e⟩
  | .ok n =>
    if signed then
      if fitsSigned bits n then ⟨.vInt n, .ok⟩ else ⟨v, .err .overflows⟩
    else ⟨v, .fault "reflect.Value.OverflowInt"⟩

/-- Model of Go `strconv.ParseFloat(s, 64)` restricted to plain decimal
forms `[+-]digits[.digits][(e|E)[+-]digits]` with an exact rational result;
hex floats, Inf/NaN spellings, digit separators and IEEE rounding are not
modelled, and no theorem depends on this function. -/
def parseGoFloat (s : String) : Option ℚ :=
  let parseBody : List Char → Option ℚ := fun cs =>
    let ip := cs.takeWhile Char.isDigit
    let rest := cs.dropWhile Char.isDigit
    let fpRest : List Char × List Char :=
      match rest with
      | '.' :: r => (r.takeWhile Char.isDigit, r.dropWhile Char.isDigit)
      | _ => ([], rest)
    match fpRest with
    | (fp, rest2) =>
      if ip.isEmpty ∧ fp.isEmpty then none
      else
        let mantDigits : Nat := (ip ++ fp).foldl (fun acc c => acc * 10 + (c.toNat - 48)) 0
        let mant : ℚ := (mantDigits : ℚ) / ((10 : ℚ) ^ fp.length)
        match rest2 with
        | [] => some mant
        | c :: r =>
          if c = 'e' ∨ c = 'E' then
            let signedDigits : Bool × List Char :=
              match r with
              | '+' :: rr => (false, rr)
              | '-' :: rr => (true, rr)
              | rr => (false, rr)
            match signedDigits with
            | (eneg, rr) =>
              let ed := rr.takeWhile Char.isDigit
              let r3 := rr.dropWhile Char.isDigit
              if ed.isEmpty ∨ ¬ r3.isEmpty then none
              else
                let e : Nat := ed.foldl (fun acc c2 => acc * 10 + (c2.toNat - 48)) 0
                some (if eneg then mant / (10 : ℚ) ^ e else mant * (10 : ℚ) ^ e)
          else none
  match s.toList with
  | '+' :: cs => parseBody cs
  | '-' :: cs => (parseBody cs).map Neg.neg
  | cs => parseBody cs

/-- Model of `Parser.setAnyFloat` (src/structify.go lines 288-307).  The
float32/float64 width of the destination does not change the outcome
modelled here (`SetFloat` narrowing to float32 rounds, which no theorem
depends on). -/
def setAnyFloat (src : CValue) (v : DstValue) : AOut :=
  match src with
  | .floatV q => ⟨.vFloat q, .ok⟩
  | .intV n => ⟨.vFloat (n : ℚ), .ok⟩
  | .str s =>
    match parseGoFloat s with
    | some q => ⟨.vFloat q, .ok⟩
    | none => ⟨v, .err .cannotAssign⟩
  | _ => ⟨v, .err .cannotAssign⟩

/-- Model of Go `strconv.FormatInt(n, 10)`. -/
def formatInt (n : Int) : String := toString n

/-- Model of Go `strconv.FormatFloat(q, 'f', -1, 64)` for the exactly
representable values arising in this development: the exact terminating
decimal expansion without trailing zeros (for such values the shortest
round-tripping decimal is the exact expansion).  No theorem depends on this
function. -/
def formatFloat (q : ℚ) : String :=
  if q.den = 1 then toString q.num
  else
    match (List.range 1100).find? (fun e => q.den ∣ 10 ^ e) with
    | some e =>
      let scaled : Int := q.num * ((10 : Int) ^ e) / (q.den : Int)
      let l := (toString scaled.natAbs).toList
      let l := if l.length ≤ e then List.replicate (e + 1 - l.length) '0' ++ l else l
      (if q.num < 0 then "-" else "") ++
        String.mk (l.take (l.length - e)) ++ "." ++ String.mk (l.drop (l.length - e))
    | none => toString q

/-- Model of `Parser.setAnyString` (src/structify.go lines 309-324). -/
def setAnyString (src : CValue) (v : DstValue) : AOut :=
  match src with
  | .str s => ⟨.vStr s, .ok⟩
  | .intV n => ⟨.vStr (formatInt n), .ok⟩
  | .floatV q => ⟨.vStr (formatFloat q), .ok⟩
  | _ => ⟨v, .err .cannotAssign⟩

/-- Model of `Parser.setAnyBool` (src/structify.go lines 326-337). -/
def setAnyBool (src : CValue) (v : DstValue) : AOut :=
  match src with
  | .boolV b => ⟨.vBool b, .ok⟩
  | _ => ⟨v, .err .cannotAssign⟩

/-- Whether a pointer to a field of this shape implements
`MissingFieldScanner` (src/structify.go lines 31-34).  The library's one
implementer is `*Optional[T]` (lines 435-437). -/
def hasMissingScanner : DstKind → Bool
  | .optionalK _ => true
  | _ => false

/-- The effect of `ScanMissingField` on a field's storage: `Optional[T]`
resets itself to `Optional[T]{}` (value zeroed, presence flag false). -/
def scanMissingField : DstKind → DstValue → DstValue
  | .optionalK inner, _ => .vStruct [zeroValue inner, .vBool false]
  | _, v => v

/-- The field values of a struct destination's current contents. -/
def structVals : DstValue → List DstValue
  | .vStruct l => l
  | _ => []

/-- The field list of the Go struct underlying `Optional[T]`:
`Value T` and `Present bool`, neither tagged. -/
def optionalFields (inner : DstKind) : List (String × Option String × DstKind) :=
  [("Value", none, inner), ("Present", none, .boolK)]

mutual

/-- Model of `Parser.parseNormalizedSource` (src/structify.go lines 65-154)
for destinations with no registered type scanner and no
`StructifyScanner`/`Scanner` implementation (the destinations of the claims;
the registry/capability dispatch head, lines 65-90, is modelled separately
by `dispatchStep`): the shape-directed switch on the destination's kind.
The decorative `structify.Parse: %v` message prefix is text only and not
modelled.  For an `any` destination (`setAnyInterface`, lines 404-414) an
absent source faults, because `reflect.Value.CanConvert` calls
`reflect.Value.Type` on the zero `reflect.Value`. -/
def parseNS (src : CValue) (k : DstKind) (v : DstValue) : AOut :=
  match k with
  | .sInt bits => setAnyInt src true bits v
  | .uInt bits => setAnyInt src false bits v
  | .flt _ => setAnyFloat src v
  | .strK => setAnyString src v
  | .boolK => setAnyBool src v
  | .structK fields =>
    match src with
    | .mapping m =>
      match structLoop m fields (structVals v) with
      | (vals, r) => ⟨.vStruct vals, r⟩
    | _ => ⟨v, .err .cannotAssign⟩
  | .optionalK inner =>
    match src with
    | .mapping m =>
      match structLoop m (optionalFields inner) (structVals v) with
      | (vals, r) => ⟨.vStruct vals, r⟩
    | _ => ⟨v, .err .cannotAssign⟩
  | .slice ek =>
    match src with
    | .sequence es =>
      match sliceLoop es ek 0 with
      | (vals, r) => ⟨.vSlice vals, r⟩
    | _ => ⟨v, .err .cannotAssign⟩
  | .anyK =>
    match src with
    | .absent => ⟨v, .fault "reflect.Value.Type"⟩
    | s => ⟨.vAny (some s), .ok⟩
  | .ptr inner =>
    match src with
    | .absent => ⟨.vPtr none, .ok⟩
    | s =>
      let out := parseNS s inner (zeroValue inner)
      ⟨.vPtr (some out.val), out.res⟩
termination_by (sizeOf src, sizeOf k)
decreasing_by
  all_goals simp_wf
  all_goals first
    | (apply Prod.Lex.left
       try simp
       try omega
       done)
    | (apply Prod.Lex.right
       try simp
       try omega
       done)

/-- Model of the per-field loop of `Parser.setAnyStruct` (src/structify.go
lines 353-381), carried out over the struct's field descriptors and its
current field values in declaration order:
a field tagged `-` is skipped entirely; a tagged field looks its tag up in
the source map literally; an untagged field looks up the original key the
normalized-name index holds for its normalized name (an index miss leaves
`mapKey` as the empty string, so a source key `""` would then be found -
exactly as in the code); a found value recurses and a failure returns
immediately (wrapped `unable to set value for %s`); a missing field invokes
`ScanMissingField` when the field's storage implements it and otherwise
returns `missing value for %s` immediately. -/
def structLoop (m : List (String × CValue))
    (fields : List (String × Option String × DstKind))
    (vals : List DstValue) : List DstValue × RunRes :=
  match fields, vals with
  | [], _ => (vals, .ok)
  | _ :: _, [] => ([], .ok)
  | (fname, tag, fty) :: fs, v :: vs =>
    if tag = some "-" then
      match structLoop m fs vs with
      | (rvals, r) => (v :: rvals, r)
    else
      let mapKey : String :=
        match tag with
        | some t => t
        | none => (indexLookup m (normalizeFieldName fname)).getD ""
      match h : mapLookup m mapKey with
      | some mv =>
        let out := parseNS mv fty v
        match out.res with
        | .ok =>
          match structLoop m fs vs with
          | (rvals, r) => (out.val :: rvals, r)
        | .err e => (out.val :: vs, .err (.fieldWrap fname e))
        | .fault w => (out.val :: vs, .fault w)
      | none =>
        if hasMissingScanner fty then
          match structLoop m fs vs with
          | (rvals, r) => (scanMissingField fty v :: rvals, r)
        else
          (v :: vs, .err (.missingValue fname))
termination_by (sizeOf m, sizeOf fields)
decreasing_by
  all_goals simp_wf
  all_goals first
    | (apply Prod.Lex.left
       have hlt := mapLookup_sizeOf h
       try simp
       try omega
       done)
    | (apply Prod.Lex.right
       try simp
       try omega
       done)

/-- Model of the per-index loop of `Parser.setAnySlice` (src/structify.go
lines 386-402): the destination is first set to a fresh zeroed slice of the
source's length (`reflect.MakeSlice`), then each index recurses into its
element; the first failing index returns immediately (wrapped
`cannot assign [%d]`), leaving the later elements at their zero value. -/
def sliceLoop (es : List CValue) (ek : DstKind) (idx : Nat) : List DstValue × RunRes :=
  match es with
  | [] => ([], .ok)
  | e :: rest =>
    let out := parseNS e ek (zeroValue ek)
    match out.res with
    | .ok =>
      match sliceLoop rest ek (idx + 1) with
      | (rvals, r) => (out.val :: rvals, r)
    | .err er => (out.val :: rest.map (fun _ => zeroValue ek), .err (.indexWrap idx er))
    | .fault w => (out.val :: rest.map (fun _ => zeroValue ek), .fault w)
termination_by (sizeOf es, sizeOf ek)
decreasing_by
  all_goals simp_wf
  all_goals (apply Prod.Lex.left
             try simp
             try omega
             done)

end

/-- The widths of Go's signed integer input types (`int`, `int8` ... `int64`);
all of them widen losslessly to `int64` during normalization. -/
inductive IntWidth : Type where
  | iDefault
  | i8
  | i16
  | i32
  | i64
deriving Repr, DecidableEq

/-- The widths of Go's unsigned integer input types (`uint`, `uint8` ...
`uint64`); `normalizeSource` has no case for any of them. -/
inductive UintWidth : Type where
  | uDefault
  | u8
  | u16
  | u32
  | u64
deriving Repr, DecidableEq

/-- The dynamic Go values a caller can hand to `Parse`, as `normalizeSource`
(src/structify.go lines 156-231) distinguishes them:
the typed cases of its switch, then the reflective slice case, then the
nil cases, then everything else.  `isNil` marks a handle that is a typed
nil (a nil `map[string]any` or nil slice has no entries/elements);
`sliceOther` is a slice of any type other than `[]any` (handled
reflectively); `otherNilable` stands for the remaining nilable kinds
(non-nil pointers, channels, funcs, maps of other key/value types);
`otherNonNilable` stands for the remaining non-nilable kinds (structs,
arrays, complex numbers, `uintptr`, ...), on which the typed-nil check
`srcVal.IsNil()` panics. -/
inductive GoValue : Type where
  | str (s : String)
  | intV (w : IntWidth) (n : Int)
  | uintV (w : UintWidth) (n : Nat)
  | floatV (is32 : Bool) (q : ℚ)
  | boolV (b : Bool)
  | mapSA (isNil : Bool) (entries : List (String × GoValue))
  | mapSS (isNil : Bool) (entries : List (String × String))
  | sliceAny (isNil : Bool) (elems : List GoValue)
  | sliceOther (isNil : Bool) (elems : List GoValue)
  | nilAny
  | nilPtr
  | otherNilable (isNil : Bool) (typeName : String)
  | otherNonNilable (typeName : String)
deriving Repr

/-- How normalization can fail to produce a canonical value: a returned
`unsupported source type: %T` error, or a runtime panic. -/
inductive NormErr : Type where
  | unsupported (typeName : String)
  | panicked (what : String)
deriving Repr, DecidableEq

mutual

/-- Model of `normalizeSource` (src/structify.go lines 156-231).  Strings,
bools pass through; signed integers widen to int64; floats widen to
float64; `map[string]any` and `[]any` normalize their values/elements
recursively (a Go map in unspecified order - modelled in list order);
`map[string]string` re-wraps its entries; any other slice normalizes
reflectively.  Only then comes `if src == nil || srcVal.IsNil()`:
untyped nil short-circuits to canonical absence, and for a typed value
`IsNil` panics unless its kind is nilable (chan, func, interface, map,
pointer, slice - slices never reach it), so unsigned integers and every
other unmatched non-nilable kind fault rather than reach the
`unsupported source type` return.  Note that a *nil* `map[string]any`,
`map[string]string` or slice matches its typed/reflective case first and
normalizes to an empty mapping/sequence, not to absence. -/
def normalizeSource : GoValue → Except NormErr CValue
  | .str s => .ok (.str s)
  | .intV _ n => .ok (.intV n)
  | .uintV _ _ => .error (.panicked "reflect.Value.IsNil")
  | .floatV _ q => .ok (.floatV q)
  | .boolV b => .ok (.boolV b)
  | .mapSA _ entries =>
    match normalizeEntries entries with
    | .ok es => .ok (.mapping es)
    | .error e => .error e
  | .mapSS _ entries => .ok (.mapping (entries.map (fun p => (p.1, .str p.2))))
  | .sliceAny _ elems =>
    match normalizeElems elems with
    | .ok es => .ok (.sequence es)
    | .error e => .error e
  | .sliceOther _ elems =>
    match normalizeElems elems with
    | .ok es => .ok (.sequence es)
    | .error e => .error e
  | .nilAny => .ok .absent
  | .nilPtr => .ok .absent
  | .otherNilable isNil t => if isNil then .ok .absent else .error (.unsupported t)
  | .otherNonNilable _ => .error (.panicked "reflect.Value.IsNil")
termination_by g => sizeOf g

/-- Recursive normalization of a `map[string]any` source's entries; the
first failure propagates (an error by return, a panic by unwinding). -/
def normalizeEntries :
    List (String × GoValue) → Except NormErr (List (String × CValue))
  | [] => .ok []
  | (k, gv) :: rest =>
    match normalizeSource gv with
    | .ok c =>
      match normalizeEntries rest with
      | .ok cs => .ok ((k, c) :: cs)
      | .error e => .error e
    | .error e => .error e
termination_by es => sizeOf es

/-- Recursive normalization of a slice source's elements. -/
def normalizeElems : List GoValue → Except NormErr (List CValue)
  | [] => .ok []
  | gv :: rest =>
    match normalizeSource gv with
    | .ok c =>
      match normalizeElems rest with
      | .ok cs => .ok (c :: cs)
      | .error e => .error e
    | .error e => .error e
termination_by es => sizeOf es

end

/-- Model of `Parser.Parse` (src/structify.go lines 56-63): normalize the
source (a normalization error returns as `structify: %v`, a panic
propagates), then hand the canonical value to the assigner. -/
def Parse (g : GoValue) (k : DstKind) (v : DstValue) : AOut :=
  match normalizeSource g with
  | .error (.unsupported t) => ⟨v, .err (.unsupportedSourceType t)⟩
  | .error (.panicked w) => ⟨v, .fault w⟩
  | .ok c => parseNS c k v

/-- A destination type as the dispatch head of `parseNormalizedSource`
(src/structify.go lines 65-90) sees it: its identity (Go type identity,
for the registry's exact-type lookup) and whether it implements the
`StructifyScanner` and/or `Scanner` interfaces. -/
structure GoDstType : Type where
  typeId : Nat
  hasStructifyScan : Bool
  hasScan : Bool
deriving Repr, DecidableEq

/-- Model of `Parser.RegisterTypeScanner` (src/structify.go lines 47-53):
record the destination type in the parser's `typeScannerFuncs` table (the
table maps the type to the converter function; selection only needs
membership). -/
def registerTypeScanner (reg : List Nat) (typeId : Nat) : List Nat :=
  typeId :: reg

/-- Which handler one `parseNormalizedSource` call hands the conversion to. -/
inductive Dispatch : Type where
  /-- A converter registered in `typeScannerFuncs` for the exact type. -/
  | typeScannerFunc
  /-- The destination's own `StructifyScan` method. -/
  | structifyScan
  /-- The destination's own `Scan` method (`database/sql.Scanner` shape). -/
  | scan
  /-- The built-in shape-directed dispatch (modelled by `parseNS`). -/
  | builtinDispatch
deriving Repr, DecidableEq

/-- Model of the dispatch head of `parseNormalizedSource` (src/structify.go
lines 65-90): the registered-converter lookup runs first and returns that
converter's result; otherwise the type switch tries `StructifyScanner`
before `Scanner`; only when neither applies does the built-in
shape-directed dispatch run. -/
def dispatchStep (reg : List Nat) (t : GoDstType) : Dispatch :=
  if reg.contains t.typeId then .typeScannerFunc
  else if t.hasStructifyScan then .structifyScan
  else if t.hasScan then .scan
  else .builtinDispatch

/-- Bool test: every key of `m` whose normalization matches the
normalization of `fname` is the key `k` itself (so the unspecified Go map
iteration order cannot change which key the index resolves to). -/
def uniqueNormMatch (m : List (String × CValue)) (fname k : String) : Bool :=
  m.all (fun p => decide (normalizeFieldName p.1 = normalizeFieldName fname → p.1 = k))

/-- Bool test: no key of `m` normalizes to the normalization of `fname`. -/
def noNormMatch (m : List (String × CValue)) (fname : String) : Bool :=
  m.all (fun p => decide (normalizeFieldName p.1 ≠ normalizeFieldName fname))

/-- The presence flag of a destination value holding an `Optional[T]`. -/
def optionalPresent : DstValue → Bool
  | .vStruct [_, .vBool b] => b
  | _ => false

theorem indexLookup_some {m : List (String × CValue)} {norm k2 : String}
    (h : indexLookup m norm = some k2) :
    normalizeFieldName k2 = norm ∧ ∃ v, (k2, v) ∈ m := by
  induction m with
  | nil => simp [indexLookup] at h
  | cons hd tl ih =>
    obtain ⟨k1, v1⟩ := hd
    rw [indexLookup] at h
    cases htl : indexLookup tl norm with
    | some k3 =>
      rw [htl] at h
      cases h
      obtain ⟨hn, v, hv⟩ := ih htl
      exact ⟨hn, v, by simp [hv]⟩
    | none =>
      rw [htl] at h
      by_cases hk : normalizeFieldName k1 = norm
      · simp [hk] at h
        subst h
        exact ⟨hk, v1, by simp⟩
      · simp [hk] at h

theorem indexLookup_none {m : List (String × CValue)} {norm : String}
    (h : indexLookup m norm = none) :
    ∀ p ∈ m, normalizeFieldName p.1 ≠ norm := by
  induction m with
  | nil => simp
  | cons hd tl ih =>
    obtain ⟨k1, v1⟩ := hd
    rw [indexLookup] at h
    cases htl : indexLookup tl norm with
    | some k3 => rw [htl] at h; cases h
    | none =>
      rw [htl] at h
      by_cases hk : normalizeFieldName k1 = norm
      · simp [hk] at h
      · intro p hp
        rcases List.mem_cons.mp hp with h1 | h2
        · subst h1; exact hk
        · exact ih htl p h2

theorem mapLookup_mem {m : List (String × CValue)} {k : String} {v : CValue}
    (h : mapLookup m k = some v) : (k, v) ∈ m := by
  induction m with
  | nil => simp [mapLookup] at h
  | cons hd tl ih =>
    obtain ⟨k1, v1⟩ := hd
    by_cases hk : k1 = k
    · subst hk
      simp [mapLookup] at h
      subst h
      simp
    · simp [mapLookup, hk] at h
      exact List.mem_cons_of_mem _ (ih h)

theorem indexLookup_eq_unique {m : List (String × CValue)} {fname k : String} {val : CValue}
    (hfound : mapLookup m k = some val)
    (huniq : uniqueNormMatch m fname k = true)
    (hnorm : normalizeFieldName k = normalizeFieldName fname) :
    indexLookup m (normalizeFieldName fname) = some k := by
  cases hidx : indexLookup m (normalizeFieldName fname) with
  | some k2 =>
    obtain ⟨hn2, v2, hmem2⟩ := indexLookup_some hidx
    have := List.all_eq_true.mp huniq ⟨k2, v2⟩ hmem2
    simp at this
    rcases this with hne | heq
    · exact absurd hn2 hne
    · rw [heq]
  | none =>
    have hmem := mapLookup_mem hfound
    have := indexLookup_none hidx ⟨k, val⟩ hmem
    simp at this
    exact absurd hnorm this

/-- Claim C1: the claim says every field of an aggregate destination is
attempted regardless of earlier failures and all failures come back in one
aggregated error (two required fields missing from the source giving
exactly two missing-value failures).  The code does the opposite: its
`setAnyStruct` returns on the *first* failing field.  This theorem
evaluates the embedded code at the failing input: a struct with required
fields FirstName and LastName and the source `map[string]any{"name":
"Jack"}` (matching neither field) returns the single error
`missing value for FirstName`, never reaching LastName, with no field
assigned. -/
theorem c1_aggregate_missing_fields_short_circuit :
    parseNS (.mapping [("name", .str "Jack")])
        (.structK [("FirstName", none, .strK), ("LastName", none, .strK)])
        (.vStruct [.vStr "", .vStr ""]) =
      ⟨.vStruct [.vStr "", .vStr ""], .err (.missingValue "FirstName")⟩ := by
  rw [parseNS]
  simp only [structVals]
  rw [structLoop]
  exact rfl

/-- Claim C2: the claim says every index of a sequence assignment is
attempted and all element failures come back in one aggregated error (the
source `[42, "bar", "7", "baz"]` into a sequence of integers giving
failures at exactly indices 1 and 3, with indices 0 and 2 populated).  The
code instead returns on the *first* failing index.  This theorem evaluates
the embedded code at that exact input with an int32 element type: the
result is the single error `cannot assign [1]: ...`, index 0 is populated
but the convertible element at index 2 is left at zero and index 3 is
never attempted. -/
theorem c2_sequence_element_failures_short_circuit :
    parseNS (.sequence [.intV 42, .str "bar", .str "7", .str "baz"])
        (.slice (.sInt 32)) (.vSlice []) =
      ⟨.vSlice [.vInt 42, .vInt 0, .vInt 0, .vInt 0], .err (.indexWrap 1 .cannotAssign)⟩ := by
  have h42 : parseNS (.intV 42) (.sInt 32) (zeroValue (.sInt 32)) = ⟨.vInt 42, .ok⟩ := by
    rw [parseNS]
    rfl
  have hbar : parseNS (.str "bar") (.sInt 32) (zeroValue (.sInt 32)) =
      ⟨zeroValue (.sInt 32), .err .cannotAssign⟩ := by
    rw [parseNS]
    rfl
  rw [parseNS]
  rw [sliceLoop]
  simp only [h42]
  rw [sliceLoop]
  simp only [hbar]
  simp [zeroValue]

/-- Claim C3 counterexample: the claim (with the spec) says a canonical
String whose parse fails on *range* yields an out-of-range error.  At the
concrete input `"9223372036854775808"` (2^63, syntactically a valid
base-10 integer but outside 64 bits, so `strconv.ParseInt` fails with
`ErrRange`) targeting an int64 destination, the code returns the
cannot-convert error `cannot assign ... to ...`, not an overflow error. -/
theorem c3_parse_range_failure_counterexample :
    parseNS (.str "9223372036854775808") (.sInt 64) (.vInt 0) =
      ⟨.vInt 0, .err .cannotAssign⟩ ∧
    (parseNS (.str "9223372036854775808") (.sInt 64) (.vInt 0)).res.isOverflowErr = false ∧
    parseInt64 "9223372036854775808" = .error .outOfRange := by
  have h : parseNS (.str "9223372036854775808") (.sInt 64) (.vInt 0) =
      ⟨.vInt 0, .err .cannotAssign⟩ := by
    rw [parseNS]
    rfl
  exact ⟨h, by rw [h]; rfl, by rfl⟩

/-- Claim C3 (amended): for every signed-integer scalar destination, a
canonical Int in the destination's range is assigned and an out-of-range
Int yields the overflow error; a canonical Float is assigned exactly when
it is an exact integer value (in 64-bit range), else the
cannot-convert-to-integer error; a canonical String is parsed as a base-10
64-bit integer, *any* parse failure (bad syntax or exceeding 64 bits)
yielding the cannot-convert error, and a successfully parsed value that
overflows the destination width yielding the out-of-range error; every
other canonical shape yields the unsupported-conversion (`cannot assign`)
error.  In particular the sources "30", 30 and 30.0 all produce the
integer 30, and 30.5 (the rational 61/2) produces the
cannot-convert-to-integer error. -/
theorem c3_signed_integer_scalar_conversion :
    (∀ (bits : Nat) (v : DstValue) (n : Int),
      parseNS (.intV n) (.sInt bits) v =
        if fitsSigned bits n then ⟨.vInt n, .ok⟩ else ⟨v, .err .overflows⟩) ∧
    (∀ (bits : Nat) (v : DstValue) (q : ℚ),
      parseNS (.floatV q) (.sInt bits) v =
        if isExactInt64 q then
          (if fitsSigned bits q.num then ⟨.vInt q.num, .ok⟩ else ⟨v, .err .overflows⟩)
        else ⟨v, .err .notInteger⟩) ∧
    (∀ (bits : Nat) (v : DstValue) (s : String),
      parseNS (.str s) (.sInt bits) v =
        match parseInt64 s with
        | .ok n => if fitsSigned bits n then ⟨.vInt n, .ok⟩ else ⟨v, .err .overflows⟩
        | .error _ => ⟨v, .err .cannotAssign⟩) ∧
    (∀ (bits : Nat) (v : DstValue) (b : Bool),
      parseNS (.boolV b) (.sInt bits) v = ⟨v, .err .cannotAssign⟩) ∧
    (∀ (bits : Nat) (v : DstValue) (es : List (String × CValue)),
      parseNS (.mapping es) (.sInt bits) v = ⟨v, .err .cannotAssign⟩) ∧
    (∀ (bits : Nat) (v : DstValue) (es : List CValue),
      parseNS (.sequence es) (.sInt bits) v = ⟨v, .err .cannotAssign⟩) ∧
    (∀ (bits : Nat) (v : DstValue),
      parseNS .absent (.sInt bits) v = ⟨v, .err .cannotAssign⟩) ∧
    parseNS (.str "30") (.sInt 32) (.vInt 0) = ⟨.vInt 30, .ok⟩ ∧
    parseNS (.intV 30) (.sInt 32) (.vInt 0) = ⟨.vInt 30, .ok⟩ ∧
    parseNS (.floatV 30) (.sInt 32) (.vInt 0) = ⟨.vInt 30, .ok⟩ ∧
    parseNS (.floatV (mkRat 61 2)) (.sInt 32) (.vInt 0) = ⟨.vInt 0, .err .notInteger⟩ := by
  refine ⟨?_, ?_, ?_, ?_, ?_, ?_, ?_, ?_, ?_, ?_, ?_⟩
  · intro bits v n
    rw [parseNS]
    simp [setAnyInt]
  · intro bits v q
    rw [parseNS]
    by_cases hq : isExactInt64 q
    · simp [setAnyInt, hq]
    · simp [setAnyInt, hq]
  · intro bits v s
    rw [parseNS]
    cases hp : parseInt64 s with
    | ok n => simp [setAnyInt, hp]
    | error e => simp [setAnyInt, hp]
  · intro bits v b
    rw [parseNS]
    rfl
  · intro bits v es
    rw [parseNS]
    rfl
  · intro bits v es
    rw [parseNS]
    rfl
  · intro bits v
    rw [parseNS]
    rfl
  · rw [parseNS]
    rfl
  · rw [parseNS]
    rfl
  · rw [parseNS]
    rfl
  · rw [parseNS]
    have hq : isExactInt64 (mkRat 61 2) = false := by decide
    simp [setAnyInt, hq]

/-- Claim C4: for an aggregate field with no explicit key override,
field-to-source-key matching is invariant under case changes and
insertion/removal of non-alphanumeric separators in the source key: when
`k` is the unique source key whose normalization (letters lower-cased,
non-alphanumeric characters stripped, digits kept) equals the
normalization of the declared field name, the field is populated from that
key - the engine recurses into the field with exactly the value stored
under `k` (uniqueness makes the unspecified Go map iteration order of the
index construction irrelevant). -/
theorem c4_field_matching_normalization_invariance
    (m : List (String × CValue)) (fname k : String) (val : CValue)
    (fty : DstKind) (v0 : DstValue)
    (hfound : mapLookup m k = some val)
    (huniq : uniqueNormMatch m fname k = true)
    (hnorm : normalizeFieldName k = normalizeFieldName fname) :
    parseNS (.mapping m) (.structK [(fname, none, fty)]) (.vStruct [v0]) =
      ⟨.vStruct [(parseNS val fty v0).val],
        match (parseNS val fty v0).res with
        | .ok => .ok
        | .err e => .err (.fieldWrap fname e)
        | .fault w => .fault w⟩ := by
  have hidx : indexLookup m (normalizeFieldName fname) = some k :=
    indexLookup_eq_unique hfound huniq hnorm
  have hkey : (indexLookup m (normalizeFieldName fname)).getD "" = k := by
    rw [hidx]
    rfl
  rw [parseNS]
  simp only [structVals]
  rw [structLoop]
  rw [if_neg (by simp : ¬((none : Option String) = some "-"))]
  have hnil : structLoop m ([] : List (String × Option String × DstKind)) ([] : List DstValue)
      = ([], .ok) := by
    rw [structLoop]
  simp only [hnil]
  split
  · rename_i mv heq
    rw [hkey, hfound] at heq
    cases heq
    cases hres : (parseNS val fty v0).res with
    | ok => simp [structLoop, hres]
    | err e => simp [hres]
    | fault w => simp [hres]
  · rename_i heq
    rw [hkey, hfound] at heq
    cases heq

/-- Claim C4 witness: the source key `first_name` (one of the spec's
variants `first_name`/`FirstName`/`firstName`/`firstname`) populates a
field declared `FirstName` with the value stored under it. -/
theorem c4_field_matching_normalization_invariance_witness :
    mapLookup [("first_name", CValue.str "Jack")] "first_name" = some (CValue.str "Jack") ∧
    uniqueNormMatch [("first_name", CValue.str "Jack")] "FirstName" "first_name" = true ∧
    normalizeFieldName "first_name" = normalizeFieldName "FirstName" ∧
    parseNS (.mapping [("first_name", .str "Jack")])
        (.structK [("FirstName", none, .strK)]) (.vStruct [.vStr ""]) =
      ⟨.vStruct [(parseNS (.str "Jack") .strK (.vStr "")).val],
        match (parseNS (.str "Jack") .strK (.vStr "")).res with
        | .ok => .ok
        | .err e => .err (.fieldWrap "FirstName" e)
        | .fault w => .fault w⟩ :=
  ⟨rfl, rfl, rfl,
    c4_field_matching_normalization_invariance [("first_name", CValue.str "Jack")]
      "FirstName" "first_name" (CValue.str "Jack") .strK (.vStr "") rfl rfl rfl⟩

/-- Claim C5: the dispatch order of every assignment step.  A converter
registered for the destination's exact type is chosen first, overriding
the capability-based delegations and the built-in dispatch whatever the
destination also implements; otherwise a destination implementing the
self-describing scan capability (`StructifyScanner`) owns the conversion -
in particular it takes precedence when the narrow value-scan capability
(`Scanner`) is implemented too; otherwise a `Scanner` destination is
delegated to; only otherwise does the built-in shape-directed dispatch
run.  Registering a type makes the registered converter the choice for
that type. -/
theorem c5_dispatch_order :
    ∀ (reg : List Nat) (t : GoDstType),
      (dispatchStep reg t = .typeScannerFunc ↔ reg.contains t.typeId = true) ∧
      (dispatchStep reg t = .structifyScan ↔
        reg.contains t.typeId = false ∧ t.hasStructifyScan = true) ∧
      (dispatchStep reg t = .scan ↔
        reg.contains t.typeId = false ∧ t.hasStructifyScan = false ∧ t.hasScan = true) ∧
      (dispatchStep reg t = .builtinDispatch ↔
        reg.contains t.typeId = false ∧ t.hasStructifyScan = false ∧ t.hasScan = false) ∧
      (∀ i : Nat,
        dispatchStep (registerTypeScanner reg i) ⟨i, t.hasStructifyScan, t.hasScan⟩ =
          .typeScannerFunc) := by
  intro reg t
  obtain ⟨i0, s1, s2⟩ := t
  refine ⟨?_, ?_, ?_, ?_, ?_⟩
  · by_cases hc : i0 ∈ reg <;> cases s1 <;> cases s2 <;>
      simp [dispatchStep, List.contains, List.elem_eq_mem, hc]
  · by_cases hc : i0 ∈ reg <;> cases s1 <;> cases s2 <;>
      simp [dispatchStep, List.contains, List.elem_eq_mem, hc]
  · by_cases hc : i0 ∈ reg <;> cases s1 <;> cases s2 <;>
      simp [dispatchStep, List.contains, List.elem_eq_mem, hc]
  · by_cases hc : i0 ∈ reg <;> cases s1 <;> cases s2 <;>
      simp [dispatchStep, List.contains, List.elem_eq_mem, hc]
  · intro i
    simp [dispatchStep, registerTypeScanner, List.contains, List.elem_eq_mem]

/-- Claim C6: the claim (and the code's own comment) says unsigned integer
inputs are *rejected* with an UnsupportedSourceType error that Parse
returns to the caller.  The code instead faults: no switch case matches an
unsigned integer, its kind is not Slice, the interface is not nil, and so
the typed-nil check evaluates `srcVal.IsNil()`, which panics on a
non-nilable unsigned `reflect.Value`.  So for every unsigned width and
value, normalization panics and `Parse` faults instead of returning the
error. -/
theorem c6_unsigned_source_normalization_faults :
    (∀ (w : UintWidth) (n : Nat),
      normalizeSource (.uintV w n) = .error (.panicked "reflect.Value.IsNil")) ∧
    (∀ (w : UintWidth) (n : Nat) (k : DstKind) (v : DstValue),
      Parse (.uintV w n) k v = ⟨v, .fault "reflect.Value.IsNil"⟩) := by
  constructor
  · intro w n
    rw [normalizeSource]
  · intro w n k v
    rw [Parse, normalizeSource]

/-- Claim C7: an aggregate field whose storage implements the
tolerate-missing capability (the generic `Optional[T]` wrapper is the
implementer) is, when no source key matches it (no key normalizes to the
field's normalized name, and the source has no empty key for the
index-miss fallback to find), reset by `ScanMissingField` to its
not-present state and processing continues without recording an error;
the resulting wrapper has presence flag false, observably different from
a wrapper holding the zero value with presence flag true. -/
theorem c7_tolerate_missing_optional_field
    (m : List (String × CValue)) (fname : String) (ik : DstKind) (w0 : DstValue)
    (hnone : noNormMatch m fname = true)
    (hempty : mapLookup m "" = none) :
    parseNS (.mapping m) (.structK [(fname, none, .optionalK ik)]) (.vStruct [w0]) =
      ⟨.vStruct [.vStruct [zeroValue ik, .vBool false]], .ok⟩ ∧
    optionalPresent (.vStruct [zeroValue ik, .vBool false]) = false ∧
    optionalPresent (.vStruct [zeroValue ik, .vBool true]) = true := by
  have hidx : indexLookup m (normalizeFieldName fname) = none := by
    cases hidx : indexLookup m (normalizeFieldName fname) with
    | none => rfl
    | some k2 =>
      obtain ⟨hn2, v2, hmem2⟩ := indexLookup_some hidx
      have := List.all_eq_true.mp hnone ⟨k2, v2⟩ hmem2
      simp at this
      exact absurd hn2 this
  refine ⟨?_, rfl, rfl⟩
  rw [parseNS]
  simp only [structVals]
  rw [structLoop]
  rw [if_neg (by simp : ¬((none : Option String) = some "-"))]
  have hnil : structLoop m ([] : List (String × Option String × DstKind)) ([] : List DstValue)
      = ([], .ok) := by
    rw [structLoop]
  simp only [hnil, hidx]
  split
  · rename_i mv heq
    simp only [hidx, Option.getD_none] at heq
    rw [hempty] at heq
    cases heq
  · simp [hasMissingScanner, scanMissingField]

/-- Claim C7 witness: a field declared `LastName` of type
`Optional[string]`, absent from the source `{"firstName": "Jack"}` and
starting from a present state, ends not-present without an error. -/
theorem c7_tolerate_missing_optional_field_witness :
    noNormMatch [("firstName", CValue.str "Jack")] "LastName" = true ∧
    mapLookup [("firstName", CValue.str "Jack")] "" = none ∧
    (parseNS (.mapping [("firstName", .str "Jack")])
        (.structK [("LastName", none, .optionalK .strK)])
        (.vStruct [.vStruct [.vStr "x", .vBool true]]) =
      ⟨.vStruct [.vStruct [zeroValue .strK, .vBool false]], .ok⟩ ∧
    optionalPresent (.vStruct [zeroValue .strK, .vBool false]) = false ∧
    optionalPresent (.vStruct [zeroValue .strK, .vBool true]) = true) :=
  ⟨rfl, rfl,
    c7_tolerate_missing_optional_field [("firstName", CValue.str "Jack")] "LastName" .strK
      (.vStruct [.vStr "x", .vBool true]) rfl rfl⟩

/-- Claim C8: a field carrying the exclusion marker (tag `-`) is skipped
before any lookup: for *every* source mapping - including one holding a
key that matches the field's name - the assignment succeeds, the field is
never reported missing and its stored value is unchanged. -/
theorem c8_skip_marker_never_missing_never_assigned :
    ∀ (m : List (String × CValue)) (fname : String) (fty : DstKind) (v0 : DstValue),
      parseNS (.mapping m) (.structK [(fname, some "-", fty)]) (.vStruct [v0]) =
        ⟨.vStruct [v0], .ok⟩ := by
  intro m fname fty v0
  rw [parseNS]
  simp only [structVals]
  rw [structLoop]
  have hnil : structLoop m ([] : List (String × Option String × DstKind)) ([] : List DstValue)
      = ([], .ok) := by
    rw [structLoop]
  simp [hnil]

/-- Claim C9 counterexample: the claim says a nil map and a nil slice
normalize to the canonical Absent value.  They do not: a nil `[]any`
matches the `case []any` (and any other nil slice the reflective slice
branch) before the nil check and normalizes to the *empty Sequence*, and a
nil `map[string]any` likewise normalizes to the *empty Mapping* - neither
is Absent. -/
theorem c9_nil_collection_not_absent_counterexample :
    normalizeSource (.sliceAny true []) = .ok (.sequence []) ∧
    (CValue.sequence []).isAbsent = false ∧
    normalizeSource (.mapSA true []) = .ok (.mapping []) ∧
    (CValue.mapping []).isAbsent = false := by
  refine ⟨?_, rfl, ?_, rfl⟩ <;> simp [normalizeSource, normalizeElems, normalizeEntries]

/-- Claim C9 (amended): untyped nil, a typed nil pointer, and a nil handle
of any nilable kind *other than* the specially-cased map and slice types
normalize to the single canonical Absent value; a nil `map[string]any` or
`map[string]string` normalizes to the empty Mapping and a nil slice to the
empty Sequence; and assigning Absent to a pointer (indirection)
destination sets it to its empty no-value state without error. -/
theorem c9_absent_normalization_amended :
    normalizeSource .nilAny = .ok .absent ∧
    normalizeSource .nilPtr = .ok .absent ∧
    (∀ t : String, normalizeSource (.otherNilable true t) = .ok .absent) ∧
    normalizeSource (.mapSA true []) = .ok (.mapping []) ∧
    normalizeSource (.mapSS true []) = .ok (.mapping []) ∧
    normalizeSource (.sliceAny true []) = .ok (.sequence []) ∧
    normalizeSource (.sliceOther true []) = .ok (.sequence []) ∧
    (∀ (k : DstKind) (v : DstValue), parseNS .absent (.ptr k) v = ⟨.vPtr none, .ok⟩) := by
  refine ⟨by rw [normalizeSource], by rw [normalizeSource], ?_, ?_, ?_, ?_, ?_, ?_⟩
  · intro t
    simp [normalizeSource]
  · simp [normalizeSource, normalizeEntries]
  · simp [normalizeSource]
  · simp [normalizeSource, normalizeElems]
  · simp [normalizeSource, normalizeElems]
  · intro k v
    rw [parseNS]

/-- Claim C10: for every unsigned-integer destination kind (which the
dispatch switch routes into the signed-integer assignment path) and every
canonical Int, Float or String source, the assignment never stores a value
and never returns an overflow error: a source that survives extraction
reaches `dstVal.OverflowInt`, a signed-only reflection operation that
panics on an unsigned destination before `SetInt` can run, and a source
that fails extraction returns its extraction error with the destination
untouched.  The final conjunct states the headline for *every* canonical
source: the outcome is never ok, never the overflow error, and the
destination value is unchanged. -/
theorem c10_unsigned_destination_never_assigns :
    ∀ (bits : Nat) (v : DstValue),
      (∀ n : Int, parseNS (.intV n) (.uInt bits) v = ⟨v, .fault "reflect.Value.OverflowInt"⟩) ∧
      (∀ q : ℚ, parseNS (.floatV q) (.uInt bits) v =
        if isExactInt64 q then ⟨v, .fault "reflect.Value.OverflowInt"⟩
        else ⟨v, .err .notInteger⟩) ∧
      (∀ s : String, parseNS (.str s) (.uInt bits) v =
        match parseInt64 s with
        | .ok _ => ⟨v, .fault "reflect.Value.OverflowInt"⟩
        | .error _ => ⟨v, .err .cannotAssign⟩) ∧
      (∀ src : CValue, (parseNS src (.uInt bits) v).res.isOk = false ∧
        (parseNS src (.uInt bits) v).res.isOverflowErr = false ∧
        (parseNS src (.uInt bits) v).val = v) := by
  intro bits v
  refine ⟨?_, ?_, ?_, ?_⟩
  · intro n
    rw [parseNS]
    rfl
  · intro q
    rw [parseNS]
    by_cases hq : isExactInt64 q
    · simp [setAnyInt, hq]
    · simp [setAnyInt, hq]
  · intro s
    rw [parseNS]
    cases hp : parseInt64 s with
    | ok n => simp [setAnyInt, hp]
    | error e => simp [setAnyInt, hp]
  · intro src
    rw [parseNS]
    cases src with
    | str s =>
      cases hp : parseInt64 s with
      | ok n => simp [setAnyInt, hp, RunRes.isOk, RunRes.isOverflowErr]
      | error e => simp [setAnyInt, hp, RunRes.isOk, RunRes.isOverflowErr]
    | floatV q =>
      by_cases hq : isExactInt64 q <;>
        simp [setAnyInt, hq, RunRes.isOk, RunRes.isOverflowErr]
    | _ => simp [setAnyInt, RunRes.isOk, RunRes.isOverflowErr]

end Structify
